import Mathlib

/-!
Shallow embedding of the Roblox community wealth-ranking extension's
background service worker (`background.js`) and the verification of the
spec's claims about it.

Modelling conventions:
- HTTP requests have `FetchResp` outcomes: `.ok page` for a successful
  response with JSON body `page`, `.err status` for a resolved non-success
  response (`!res.ok`), and `.reject msg` when the fetch promise itself
  rejects (source unreachable) — the code catches none of these
  rejections, so they propagate as exceptions.
- A paginated source is a function from the request cursor to the response;
  the per-member item source additionally takes the user id (the URL's
  dynamic parts other than `cursor` and the id are constant in the code).
- The cursor-following `while (true)` loops are embedded fuel-indexed;
  `none` means the fuel ran out (the JS loop would still be running), so
  every theorem about a finite page chain supplies sufficient fuel.
- Each function also returns the number of network requests (`fetch` calls)
  it performed, used to state the "zero network calls" claim.
- JS truthiness of `data.nextPageCursor` and `items.lastCommunityId` (empty
  string is falsy) is modelled explicitly.
-/

namespace Background

/-- Threshold from `const LIMITED_THRESHOLD = 10000`. -/
def LIMITED_THRESHOLD : Nat := 10000

/-- Pool size from `const CONCURRENCY_LIMIT = 15`. -/
def CONCURRENCY_LIMIT : Nat := 15

/-- One page of a paginated JSON response: `{ data, nextPageCursor }`. The
`data` field may be absent (`data.data || []` in the code), hence `Option`. -/
structure Page (τ : Type) where
  data : Option (List τ)
  nextPageCursor : Option String
deriving DecidableEq

/-- Outcome of one `fetch`: a parsed page when `res.ok`; the status code
of a resolved non-success response (`!res.ok`); or `reject msg` when the
fetch promise itself rejects because the source is unreachable (network
error) — `msg` is the rejection's `err.message`.  The code never catches a
rejection, so an `await fetch` on a rejecting source throws. -/
inductive FetchResp (τ : Type) where
  | ok (page : Page τ)
  | err (status : Nat)
  | reject (msg : String)
deriving DecidableEq

/-- The `entry.user` object of a roster page entry. -/
structure RosterUser where
  userId : Nat
  username : String
deriving DecidableEq

/-- One entry of the group-members roster page (`data.data` element). -/
structure RosterEntry where
  user : RosterUser
deriving DecidableEq

/-- One collectible item of an inventory page; `recentAveragePrice` may be
absent (the code reads `item.recentAveragePrice || 0`). -/
structure CollectibleItem where
  recentAveragePrice : Option Nat
deriving DecidableEq

/-- A member record as pushed by `fetchAllMembers`:
`{ userId: entry.user.userId, username: entry.user.username }`. -/
structure Member where
  userId : Nat
  username : String
deriving DecidableEq

/-- A ranked entry `{ username, rap }` as produced by `processCommunity`. -/
structure RankedUser where
  username : String
  rap : Nat
deriving DecidableEq

/-- The `chrome.storage.local` keys the worker uses. -/
structure Storage where
  lastCommunityId : Option String
  lastResults : Option (List RankedUser)
deriving DecidableEq

/-- Loop body of `fetchAllMembers`: follow cursors from `cursor`, appending
each page's members to `acc`; `calls` counts the `fetch` requests
attempted so far.  A non-success response throws
`Failed to fetch members: status`; a rejected fetch (unreachable source)
propagates uncaught, surfacing its own message; the loop ends when
`data.nextPageCursor` is falsy (absent or the empty string).  `none` =
fuel exhausted. -/
def fetchAllMembersGo (src : String → FetchResp RosterEntry) :
    Nat → String → List Member → Nat → Option (Except String (List Member) × Nat)
  | 0, _, _, _ => none
  | fuel + 1, cursor, acc, calls =>
    match src cursor with
    | .reject msg => some (.error msg, calls + 1)
    | .err status =>
      some (.error ("Failed to fetch members: " ++ toString status), calls + 1)
    | .ok page =>
      let acc2 := acc ++ (page.data.getD []).map (fun e => ⟨e.user.userId, e.user.username⟩)
      match page.nextPageCursor with
      | none => some (.ok acc2, calls + 1)
      | some c2 =>
        if c2 = "" then some (.ok acc2, calls + 1)
        else fetchAllMembersGo src fuel c2 acc2 (calls + 1)

/-- `fetchAllMembers(communityId)`: starts at `cursor = ''` with an empty
member list.  The community id only selects the roster source, so the
source is passed already applied to it. -/
def fetchAllMembers (src : String → FetchResp RosterEntry) (fuel : Nat) :
    Option (Except String (List Member) × Nat) :=
  fetchAllMembersGo src fuel "" [] 0

/-- Inner loop of `fetchUserRAP` over one page's items:
`price = item.recentAveragePrice || 0; if (price >= LIMITED_THRESHOLD) rap += price`. -/
def addQualifyingRAP (rap : Nat) (items : List CollectibleItem) : Nat :=
  items.foldl
    (fun r it =>
      let price := it.recentAveragePrice.getD 0
      if LIMITED_THRESHOLD ≤ price then r + price else r)
    rap

/-- Sum of the values of the items whose value meets the threshold. -/
def qualifyingRAP (items : List CollectibleItem) : Nat :=
  (((items.map (fun it => it.recentAveragePrice.getD 0)).filter
      (fun price => LIMITED_THRESHOLD ≤ price))).sum

/-- Loop body of `fetchUserRAP`: follow cursors accumulating `rap`.  A
resolved non-success response `break`s — only that case is handled — so
the partial sum is returned normally (`Except.ok`); a rejected fetch
(unreachable source) is caught nowhere in the function and the exception
escapes to the caller (`Except.error` with the rejection's message); the
loop also ends when `data.nextPageCursor` is falsy.  `none` = fuel
exhausted. -/
def fetchUserRAPGo (src : String → FetchResp CollectibleItem) :
    Nat → String → Nat → Nat → Option (Except String Nat × Nat)
  | 0, _, _, _ => none
  | fuel + 1, cursor, rap, calls =>
    match src cursor with
    | .reject msg => some (.error msg, calls + 1)
    | .err _ => some (.ok rap, calls + 1)
    | .ok page =>
      let rap2 := addQualifyingRAP rap (page.data.getD [])
      match page.nextPageCursor with
      | none => some (.ok rap2, calls + 1)
      | some c2 =>
        if c2 = "" then some (.ok rap2, calls + 1)
        else fetchUserRAPGo src fuel c2 rap2 (calls + 1)

/-- `fetchUserRAP(userId)`: starts at `cursor = ''` with `rap = 0`.
`itemSrc` maps a user id to that user's paginated collectibles source. -/
def fetchUserRAP (itemSrc : Nat → String → FetchResp CollectibleItem)
    (fuel : Nat) (userId : Nat) : Option (Except String Nat × Nat) :=
  fetchUserRAPGo (itemSrc userId) fuel "" 0 0

/-- The score the aggregation phase records for user id `uid`: the value
`fetchUserRAP(uid)` fulfils with, when it fulfils at all. -/
def memberScore (itemSrc : Nat → String → FetchResp CollectibleItem)
    (fuel uid : Nat) : Option Nat :=
  match fetchUserRAP itemSrc fuel uid with
  | some (.ok rap, _) => some rap
  | _ => none

/-- The aggregation phase of `processCommunity`: for each member run
`fetchUserRAP(member.userId)` and record `rapResults[member.userId] = rap`,
accumulating the number of network calls.  The concurrent tasks are
write-disjoint by key and each key's value depends only on the key (same
id ⇒ same source ⇒ same result), so the mapping of a completed batch is
the same for every completion order and it is folded here in roster order.
If some task's fetch rejects, that task's exception rejects the
`Promise.all` inside `asyncPool` and `await asyncPool` re-throws it out of
`processCommunity` (`Except.error`); which rejection surfaces first when
several tasks reject is schedule-dependent in the code, and this
linearization picks the first in roster order. -/
def computeRapResultsGo (itemSrc : Nat → String → FetchResp CollectibleItem)
    (fuel : Nat) :
    List Member → (Nat → Option Nat) → Nat →
    Option (Except String (Nat → Option Nat) × Nat)
  | [], rapResults, calls => some (.ok rapResults, calls)
  | m :: rest, rapResults, calls =>
    match fetchUserRAP itemSrc fuel m.userId with
    | none => none
    | some (.error msg, c) => some (.error msg, calls + c)
    | some (.ok rap, c) =>
      computeRapResultsGo itemSrc fuel rest
        (Function.update rapResults m.userId (some rap)) (calls + c)

def computeRapResults (itemSrc : Nat → String → FetchResp CollectibleItem)
    (fuel : Nat) (members : List Member) :
    Option (Except String (Nat → Option Nat) × Nat) :=
  computeRapResultsGo itemSrc fuel members (fun _ => none) 0

/-- The order imposed by the comparator `(a, b) => b.rap - a.rap`:
descending rap. -/
def rankedGE (a b : RankedUser) : Prop := b.rap ≤ a.rap

instance : DecidableRel rankedGE := fun a b => Nat.decLe b.rap a.rap

instance : IsTotal RankedUser rankedGE := ⟨fun a b => Nat.le_total b.rap a.rap⟩

instance : IsTrans RankedUser rankedGE := ⟨fun _ _ _ h1 h2 => Nat.le_trans h2 h1⟩

/-- Projection and sort of `processCommunity`:
`members.map((m) => ({username: m.username, rap: rapResults[m.userId] || 0})).sort((a, b) => b.rap - a.rap)`.
JS `Array.prototype.sort` promises a comparator-consistent reordering but
fixes no algorithm; it is modelled by insertion sort, one concrete
comparator-consistent sort (the determinism claim quantifies over every
sorted rearrangement, so nothing depends on this choice beyond
sortedness and permutation). -/
def rankMembers (members : List Member) (rapResults : Nat → Option Nat) :
    List RankedUser :=
  List.insertionSort rankedGE
    (members.map (fun m => ⟨m.username, (rapResults m.userId).getD 0⟩))

/-- `processCommunity(communityId)`: fetch roster, aggregate RAP, rank, and
cache `{ lastCommunityId: communityId, lastResults: ranked }`.  Returns the
result — or the propagated roster error, or the re-thrown rejection of a
member task, either of which skips the cache write — together with the
storage after the run and the number of network calls. -/
def processCommunity (rosterSrc : String → FetchResp RosterEntry)
    (itemSrc : Nat → String → FetchResp CollectibleItem)
    (fuel : Nat) (communityId : String) (store : Storage) :
    Option (Except String (List RankedUser) × Storage × Nat) := do
  let (rosterRes, rosterCalls) ← fetchAllMembers rosterSrc fuel
  match rosterRes with
  | .error e => pure (.error e, store, rosterCalls)
  | .ok members => do
    let (aggRes, memberCalls) ← computeRapResults itemSrc fuel members
    match aggRes with
    | .error e => pure (.error e, store, rosterCalls + memberCalls)
    | .ok rapResults =>
      let ranked := rankMembers members rapResults
      pure (.ok ranked,
        { lastCommunityId := some communityId, lastResults := some ranked },
        rosterCalls + memberCalls)

/-- Messages handled by `chrome.runtime.onMessage.addListener`. -/
inductive ChromeMessage where
  | fetchCommunity (communityId : String)
  | refresh
  | other
deriving DecidableEq

/-- The object passed to `sendResponse`. -/
structure OutResponse where
  success : Bool
  list : Option (List RankedUser)
  error : Option String
deriving DecidableEq

/-- `sendResponse({success: true, list})` on fulfilment,
`sendResponse({success: false, error: err.message})` on rejection. -/
def responseOf : Except String (List RankedUser) → OutResponse
  | .ok l => ⟨true, some l, none⟩
  | .error e => ⟨false, none, some e⟩

/-- The message listener.  `FETCH_COMMUNITY` runs the pipeline.  `REFRESH`
reads `lastCommunityId` from storage (a storage read, not a network call)
and re-runs the pipeline when it is truthy, otherwise responds
`No previous community searched.` at once.  Other messages get no response.
Result: the response sent (if any), the storage afterwards, and the number
of network calls. -/
def handleMessage (rosterSrc : String → FetchResp RosterEntry)
    (itemSrc : Nat → String → FetchResp CollectibleItem)
    (fuel : Nat) (msg : ChromeMessage) (store : Storage) :
    Option (Option OutResponse × Storage × Nat) :=
  match msg with
  | .fetchCommunity cid =>
    (processCommunity rosterSrc itemSrc fuel cid store).map
      (fun r => (some (responseOf r.1), r.2.1, r.2.2))
  | .refresh =>
    match store.lastCommunityId with
    | some cid =>
      if cid = "" then
        some (some ⟨false, none, some "No previous community searched."⟩, store, 0)
      else
        (processCommunity rosterSrc itemSrc fuel cid store).map
          (fun r => (some (responseOf r.1), r.2.1, r.2.2))
    | none =>
      some (some ⟨false, none, some "No previous community searched."⟩, store, 0)
  | .other => some (none, store, 0)

/-- A finite successful cursor chain of pages: from cursor `c` the source
answers `p₁, p₂, …`, each page's truthy `nextPageCursor` is the next
cursor, and the last page's `nextPageCursor` is absent. -/
inductive PageChain {τ : Type} (src : String → FetchResp τ) :
    String → List (Page τ) → Prop
  | last (c : String) (p : Page τ) :
      src c = .ok p → p.nextPageCursor = none → PageChain src c [p]
  | more (c c2 : String) (p : Page τ) (ps : List (Page τ)) :
      src c = .ok p → p.nextPageCursor = some c2 → c2 ≠ "" →
      PageChain src c2 ps → PageChain src c (p :: ps)

/-- A cursor chain that ends in a non-success response with status `st`
after the successful pages `ps`. -/
inductive FailChain {τ : Type} (src : String → FetchResp τ) :
    String → List (Page τ) → Nat → Prop
  | fail (c : String) (st : Nat) : src c = .err st → FailChain src c [] st
  | more (c c2 : String) (p : Page τ) (ps : List (Page τ)) (st : Nat) :
      src c = .ok p → p.nextPageCursor = some c2 → c2 ≠ "" →
      FailChain src c2 ps st → FailChain src c (p :: ps) st

/-!
Model of `asyncPool(poolLimit, array, iteratorFn)`.

The pool takes up the items of `array` in order.  Launching position `i`
creates `p = Promise.resolve().then(() => iteratorFn(item, array.indexOf(item)))`
and pushes it into `ret`.  When `poolLimit <= array.length`, a tracking
promise is pushed into `executing` and, whenever `executing` reaches
`poolLimit` entries, the loop `await`s `Promise.race(executing)`; every
finished task removes its own tracker before its tracker settles, so when
the loop resumes at least one in-flight task has finished.  Hence the next
position is launched only while the in-flight count is strictly below the
limit (when the limit applies).  Task completion order is arbitrary, so it
is a second nondeterministic step.  `asyncPool` returns `Promise.all(ret)`,
which resolves once every launched task has finished, with the task results
in admission (= input) order.

The state records the next position to take up, the launched-but-unfinished
positions, the finished positions, and the value each `ret` slot has
resolved with (`none` while pending).
-/

/-- Scheduler state of one `asyncPool` run. -/
structure PoolState (β : Type) where
  next : Nat
  inFlight : List Nat
  done : List Nat
  results : Nat → Option β

/-- The state before the `for` loop starts. -/
def initialPoolState (β : Type) : PoolState β :=
  ⟨0, [], [], fun _ => none⟩

/-- The value the task launched at position `i` resolves with:
`iteratorFn(item, array.indexOf(item))` — the index is recomputed with
`indexOf`, so a duplicated item gets its first occurrence's index. -/
def taskResult {α β : Type} [DecidableEq α] (arr : List α) (f : α → Nat → β)
    (i : Nat) : Option β :=
  (arr.get? i).map (fun it => f it (arr.indexOf it))

/-- One scheduler step of `asyncPool poolLimit arr f`: either the loop
launches the next position (allowed only below the limit when
`poolLimit ≤ arr.length`, per the `executing`/`Promise.race` logic), or an
in-flight task finishes and records its result in its `ret` slot. -/
inductive PoolStep {α β : Type} [DecidableEq α]
    (poolLimit : Nat) (arr : List α) (f : α → Nat → β) :
    PoolState β → PoolState β → Prop
  | launch (s : PoolState β) (hnext : s.next < arr.length)
      (hcap : poolLimit ≤ arr.length → s.inFlight.length < poolLimit) :
      PoolStep poolLimit arr f s
        ⟨s.next + 1, s.inFlight ++ [s.next], s.done, s.results⟩
  | finish (s : PoolState β) (i : Nat) (hmem : i ∈ s.inFlight) :
      PoolStep poolLimit arr f s
        ⟨s.next, s.inFlight.erase i, i :: s.done,
          Function.update s.results i (taskResult arr f i)⟩

/-- States reachable by the scheduler from the initial state. -/
inductive PoolReachable {α β : Type} [DecidableEq α]
    (poolLimit : Nat) (arr : List α) (f : α → Nat → β) : PoolState β → Prop
  | init : PoolReachable poolLimit arr f (initialPoolState β)
  | step {s t : PoolState β} : PoolReachable poolLimit arr f s →
      PoolStep poolLimit arr f s t → PoolReachable poolLimit arr f t

/-- The `Promise.all(ret)` of `asyncPool` is resolved exactly in the states
where every position has been launched and no task is still in flight. -/
def PoolResolved {β : Type} (arr_length : Nat) (s : PoolState β) : Prop :=
  s.next = arr_length ∧ s.inFlight = []

/-- Scheduler invariant: positions are launched in order and stay below the
input length; the launched positions are exactly `0 … next-1`, each of them
in flight or finished exactly once; when the limit applies the in-flight
count never exceeds it; and a `ret` slot is filled exactly when its task
has finished, with that task's value. -/
def PoolInv {α β : Type} [DecidableEq α]
    (poolLimit : Nat) (arr : List α) (f : α → Nat → β) (s : PoolState β) : Prop :=
  s.next ≤ arr.length ∧
  (s.inFlight ++ s.done).Perm (List.range s.next) ∧
  (poolLimit ≤ arr.length → s.inFlight.length ≤ poolLimit) ∧
  (∀ i, s.results i = if i ∈ s.done then taskResult arr f i else none)

/-- Members contributed by one roster page. -/
def pageMembers (p : Page RosterEntry) : List Member :=
  (p.data.getD []).map (fun e => ⟨e.user.userId, e.user.username⟩)

/-- Items contained in a list of item pages, in page order. -/
def pagesItems (ps : List (Page CollectibleItem)) : List CollectibleItem :=
  ps.flatMap (fun p => p.data.getD [])

/-- A ranked list is non-increasing in the `rap` field. -/
def SortedDesc (l : List RankedUser) : Prop :=
  l.Sorted rankedGE

instance : DecidablePred SortedDesc := fun l =>
  List.decidableSorted l

/-- Test fixture: a one-page roster with members 1 "A" and 2 "B"
(the spec's worked scenario). -/
def rosterSrcW : String → FetchResp RosterEntry := fun c =>
  if c = "" then .ok ⟨some [⟨⟨1, "A"⟩⟩, ⟨⟨2, "B"⟩⟩], none⟩ else .err 400

/-- Test fixture: member 1 owns one 15000 item, member 2 owns a 5000 and a
12000 item, each on a single page; other users respond 404. -/
def itemSrcW : Nat → String → FetchResp CollectibleItem := fun uid c =>
  if uid = 1 then
    (if c = "" then .ok ⟨some [⟨some 15000⟩], none⟩ else .err 400)
  else if uid = 2 then
    (if c = "" then .ok ⟨some [⟨some 5000⟩, ⟨some 12000⟩], none⟩ else .err 400)
  else .err 404

/-- Test fixture: a two-page collectibles source, second page reached via
cursor "A"; it carries a below-threshold and a missing price. -/
def itemSrcTwoPagesW : Nat → String → FetchResp CollectibleItem := fun _ c =>
  if c = "" then .ok ⟨some [⟨some 15000⟩, ⟨some 5000⟩], some "A"⟩
  else if c = "A" then .ok ⟨some [⟨some 12000⟩, ⟨none⟩], none⟩
  else .err 404

/-- Test fixture: like `itemSrcW` but user 2's source answers a resolved
non-success response (HTTP 500). -/
def itemSrcPartW : Nat → String → FetchResp CollectibleItem := fun uid c =>
  if uid = 2 then .err 500 else itemSrcW uid c

/-- Test fixture: like `itemSrcW` but user 2's source is unreachable — the
fetch promise rejects with the browser's `Failed to fetch` message. -/
def itemRejectSrcW : Nat → String → FetchResp CollectibleItem := fun uid c =>
  if uid = 2 then .reject "Failed to fetch" else itemSrcW uid c

/-- Test fixture: a roster source that is down (HTTP 500 on every page). -/
def rosterFailSrcW : String → FetchResp RosterEntry := fun _ => .err 500

/-- Test fixture: a roster source with a single, empty page. -/
def rosterEmptySrcW : String → FetchResp RosterEntry := fun c =>
  if c = "" then .ok ⟨some [], none⟩ else .err 400

/-- Test fixture: the member list produced by `rosterSrcW`. -/
def membersW : List Member := [⟨1, "A"⟩, ⟨2, "B"⟩]

/-- Test fixture: the score mapping the aggregation phase computes for
`membersW` with `itemSrcW`. -/
def rapResultsW : Nat → Option Nat :=
  Function.update (Function.update (fun _ => none) 1 (some 15000)) 2 (some 12000)

/-- Test fixture: a collectibles source that is down for every user. -/
def itemFailSrcW : Nat → String → FetchResp CollectibleItem := fun _ _ => .err 500

lemma poolInv_initial {α β : Type} [DecidableEq α]
    (poolLimit : Nat) (arr : List α) (f : α → Nat → β) :
    PoolInv poolLimit arr f (initialPoolState β) := by
  refine ⟨Nat.zero_le _, by simp [initialPoolState], fun _ => by simp [initialPoolState],
    fun i => by simp [initialPoolState]⟩

lemma poolInv_step {α β : Type} [DecidableEq α]
    {poolLimit : Nat} {arr : List α} {f : α → Nat → β} {s t : PoolState β}
    (hinv : PoolInv poolLimit arr f s) (hstep : PoolStep poolLimit arr f s t) :
    PoolInv poolLimit arr f t := by
  obtain ⟨hnext, hperm, hcap, hres⟩ := hinv
  cases hstep with
  | launch hlt hadm =>
    refine ⟨hlt, ?_, fun hK => ?_, hres⟩
    · have h1 : ((s.inFlight ++ [s.next]) ++ s.done).Perm
          ((s.inFlight ++ s.done) ++ [s.next]) := by
        rw [List.append_assoc, List.append_assoc]
        exact List.Perm.append_left _ List.perm_append_comm
      rw [List.range_succ]
      exact h1.trans (hperm.append_right _)
    · simpa using Nat.succ_le_of_lt (hadm hK)
  | finish i hmem =>
    refine ⟨hnext, ?_, fun hK => ?_, fun j => ?_⟩
    · have h2 : (s.inFlight.erase i ++ i :: s.done).Perm
          (i :: (s.inFlight.erase i ++ s.done)) := List.perm_middle
      have h3 : ((i :: s.inFlight.erase i) ++ s.done).Perm (s.inFlight ++ s.done) :=
        ((List.perm_cons_erase hmem).symm).append_right _
      exact h2.trans (h3.trans hperm)
    · exact le_trans ((s.inFlight.erase_sublist i).length_le) (hcap hK)
    · by_cases hj : j = i
      · subst hj
        simp [Function.update_same]
      · simp [Function.update_noteq hj, hres j, List.mem_cons, hj]

lemma poolReachable_inv {α β : Type} [DecidableEq α]
    {poolLimit : Nat} {arr : List α} {f : α → Nat → β} {s : PoolState β}
    (h : PoolReachable poolLimit arr f s) : PoolInv poolLimit arr f s := by
  induction h with
  | init => exact poolInv_initial _ _ _
  | step _ hstep ih => exact poolInv_step ih hstep

lemma addQualifyingRAP_eq (items : List CollectibleItem) :
    ∀ rap : Nat, addQualifyingRAP rap items = rap + qualifyingRAP items := by
  induction items with
  | nil => intro rap; simp [addQualifyingRAP, qualifyingRAP]
  | cons it rest ih =>
    intro rap
    have hstep : addQualifyingRAP rap (it :: rest)
        = addQualifyingRAP
            (if LIMITED_THRESHOLD ≤ it.recentAveragePrice.getD 0
              then rap + it.recentAveragePrice.getD 0 else rap) rest := by
      simp only [addQualifyingRAP, List.foldl_cons]
    by_cases hq : LIMITED_THRESHOLD ≤ it.recentAveragePrice.getD 0
    · rw [hstep, if_pos hq, ih]
      simp [qualifyingRAP, List.filter_cons, hq]
      omega
    · rw [hstep, if_neg hq, ih]
      simp [qualifyingRAP, List.filter_cons, hq]

lemma qualifyingRAP_append (l1 l2 : List CollectibleItem) :
    qualifyingRAP (l1 ++ l2) = qualifyingRAP l1 + qualifyingRAP l2 := by
  simp [qualifyingRAP, List.filter_append]

lemma fetchUserRAPGo_chain {src : String → FetchResp CollectibleItem}
    {c : String} {ps : List (Page CollectibleItem)} (h : PageChain src c ps) :
    ∀ fuel rap calls, ps.length ≤ fuel →
      fetchUserRAPGo src fuel c rap calls
        = some (.ok (rap + qualifyingRAP (pagesItems ps)), calls + ps.length) := by
  induction h with
  | last c p hsrc hlast =>
    intro fuel rap calls hfuel
    match fuel, hfuel with
    | fuel + 1, _ =>
      simp only [fetchUserRAPGo, hsrc, hlast]
      simp [addQualifyingRAP_eq, pagesItems]
  | more c c2 p ps hsrc hnext hne _ ih =>
    intro fuel rap calls hfuel
    match fuel, hfuel with
    | fuel + 1, hfuel =>
      simp only [fetchUserRAPGo, hsrc, hnext]
      rw [if_neg hne, ih fuel _ _ (by simpa using Nat.le_of_succ_le_succ hfuel)]
      simp only [pagesItems, List.flatMap_cons]
      rw [addQualifyingRAP_eq, qualifyingRAP_append]
      refine congrArg some (Prod.ext (congrArg Except.ok ?_) ?_)
      · omega
      · simp only [List.length_cons]
        omega

lemma fetchUserRAPGo_fail {src : String → FetchResp CollectibleItem}
    {c : String} {ps : List (Page CollectibleItem)} {st : Nat}
    (h : FailChain src c ps st) :
    ∀ fuel rap calls, ps.length + 1 ≤ fuel →
      fetchUserRAPGo src fuel c rap calls
        = some (.ok (rap + qualifyingRAP (pagesItems ps)), calls + (ps.length + 1)) := by
  induction h with
  | fail c st hsrc =>
    intro fuel rap calls hfuel
    match fuel, hfuel with
    | fuel + 1, _ =>
      simp [fetchUserRAPGo, hsrc, pagesItems, qualifyingRAP]
  | more c c2 p ps st hsrc hnext hne _ ih =>
    intro fuel rap calls hfuel
    match fuel, hfuel with
    | fuel + 1, hfuel =>
      simp only [fetchUserRAPGo, hsrc, hnext]
      rw [if_neg hne, ih fuel _ _ (by simpa using Nat.le_of_succ_le_succ hfuel)]
      simp only [pagesItems, List.flatMap_cons]
      rw [addQualifyingRAP_eq, qualifyingRAP_append]
      refine congrArg some (Prod.ext (congrArg Except.ok ?_) ?_)
      · omega
      · simp only [List.length_cons]
        omega

lemma fetchAllMembersGo_chain {src : String → FetchResp RosterEntry}
    {c : String} {ps : List (Page RosterEntry)} (h : PageChain src c ps) :
    ∀ fuel acc calls, ps.length ≤ fuel →
      fetchAllMembersGo src fuel c acc calls
        = some (.ok (acc ++ ps.flatMap pageMembers), calls + ps.length) := by
  induction h with
  | last c p hsrc hlast =>
    intro fuel acc calls hfuel
    match fuel, hfuel with
    | fuel + 1, _ =>
      simp only [fetchAllMembersGo, hsrc, hlast]
      simp [pageMembers]
  | more c c2 p ps hsrc hnext hne _ ih =>
    intro fuel acc calls hfuel
    match fuel, hfuel with
    | fuel + 1, hfuel =>
      simp only [fetchAllMembersGo, hsrc, hnext]
      rw [if_neg hne, ih fuel _ _ (by simpa using Nat.le_of_succ_le_succ hfuel)]
      refine congrArg some (Prod.ext ?_ ?_)
      · simp [pageMembers, List.flatMap_cons]
      · simp only [List.length_cons]
        omega

lemma fetchAllMembersGo_fail {src : String → FetchResp RosterEntry}
    {c : String} {ps : List (Page RosterEntry)} {st : Nat}
    (h : FailChain src c ps st) :
    ∀ fuel acc calls, ps.length + 1 ≤ fuel →
      fetchAllMembersGo src fuel c acc calls
        = some (.error ("Failed to fetch members: " ++ toString st),
            calls + (ps.length + 1)) := by
  induction h with
  | fail c st hsrc =>
    intro fuel acc calls hfuel
    match fuel, hfuel with
    | fuel + 1, _ =>
      simp [fetchAllMembersGo, hsrc]
  | more c c2 p ps st hsrc hnext hne _ ih =>
    intro fuel acc calls hfuel
    match fuel, hfuel with
    | fuel + 1, hfuel =>
      simp only [fetchAllMembersGo, hsrc, hnext]
      rw [if_neg hne, ih fuel _ _ (by simpa using Nat.le_of_succ_le_succ hfuel)]
      refine congrArg some (Prod.ext ?_ ?_)
      · simp
      · simp only [List.length_cons]
        omega

lemma memberScore_isSome_iff
    {itemSrc : Nat → String → FetchResp CollectibleItem} {fuel uid : Nat} :
    (memberScore itemSrc fuel uid).isSome ↔
      ∃ rap c, fetchUserRAP itemSrc fuel uid = some (.ok rap, c) := by
  unfold memberScore
  cases hf : fetchUserRAP itemSrc fuel uid with
  | none => simp
  | some rc =>
    obtain ⟨res, c⟩ := rc
    cases res with
    | error msg => simp
    | ok rap => simp

lemma computeRapResults_go_lookup
    (itemSrc : Nat → String → FetchResp CollectibleItem) (fuel : Nat) :
    ∀ (members : List Member) (rap0 : Nat → Option Nat) (calls : Nat)
      (rr : Nat → Option Nat) (n : Nat),
      computeRapResultsGo itemSrc fuel members rap0 calls = some (.ok rr, n) →
      ∀ uid, rr uid
        = if uid ∈ members.map Member.userId
            then memberScore itemSrc fuel uid
            else rap0 uid := by
  intro members
  induction members with
  | nil =>
    intro rap0 calls rr n h uid
    simp only [computeRapResultsGo, Option.some.injEq, Prod.mk.injEq,
      Except.ok.injEq] at h
    obtain ⟨h1, -⟩ := h
    simp [← h1]
  | cons m rest ih =>
    intro rap0 calls rr n h uid
    cases hf : fetchUserRAP itemSrc fuel m.userId with
    | none => simp [computeRapResultsGo, hf] at h
    | some rc =>
      obtain ⟨res, c⟩ := rc
      cases res with
      | error msg => simp [computeRapResultsGo, hf] at h
      | ok rap =>
        simp only [computeRapResultsGo, hf] at h
        have h2 := ih _ _ _ _ h uid
        by_cases hrest : uid ∈ rest.map Member.userId
        · simp [hrest, h2]
        · by_cases huid : uid = m.userId
          · subst huid
            rw [h2, if_neg hrest, Function.update_same,
              if_pos (by simp [List.mem_cons])]
            simp [memberScore, hf]
          · rw [h2, if_neg hrest, Function.update_noteq huid, if_neg ?hne]
            case hne =>
              simp only [List.map_cons, List.mem_cons]
              rintro (h3 | h3)
              · exact huid h3
              · exact hrest h3

lemma computeRapResults_go_ok
    (itemSrc : Nat → String → FetchResp CollectibleItem) (fuel : Nat) :
    ∀ (members : List Member),
      (∀ m ∈ members, (memberScore itemSrc fuel m.userId).isSome) →
      ∀ (rap0 : Nat → Option Nat) (calls : Nat),
        ∃ rr n, computeRapResultsGo itemSrc fuel members rap0 calls
          = some (.ok rr, n) := by
  intro members
  induction members with
  | nil => intro _ rap0 calls; exact ⟨rap0, calls, rfl⟩
  | cons m rest ih =>
    intro hall rap0 calls
    obtain ⟨rap, c, hf⟩ :=
      memberScore_isSome_iff.mp (hall m (List.mem_cons_self m rest))
    simp only [computeRapResultsGo, hf]
    exact ih (fun x hx => hall x (List.mem_cons_of_mem m hx)) _ _

lemma computeRapResults_go_mem_ok
    (itemSrc : Nat → String → FetchResp CollectibleItem) (fuel : Nat) :
    ∀ (members : List Member) (rap0 : Nat → Option Nat) (calls : Nat)
      (rr : Nat → Option Nat) (n : Nat),
      computeRapResultsGo itemSrc fuel members rap0 calls = some (.ok rr, n) →
      ∀ m ∈ members, (memberScore itemSrc fuel m.userId).isSome := by
  intro members
  induction members with
  | nil => intro rap0 calls rr n _ m hm; exact absurd hm (List.not_mem_nil m)
  | cons m0 rest ih =>
    intro rap0 calls rr n h m hm
    cases hf : fetchUserRAP itemSrc fuel m0.userId with
    | none => simp [computeRapResultsGo, hf] at h
    | some rc =>
      obtain ⟨res, c⟩ := rc
      cases res with
      | error msg => simp [computeRapResultsGo, hf] at h
      | ok rap =>
        simp only [computeRapResultsGo, hf] at h
        rcases List.mem_cons.mp hm with hm0 | hmr
        · subst hm0
          exact memberScore_isSome_iff.mpr ⟨rap, c, hf⟩
        · exact ih _ _ _ _ h m hmr

lemma computeRapResults_lookup
    {itemSrc : Nat → String → FetchResp CollectibleItem} {fuel : Nat}
    {members : List Member} {rr : Nat → Option Nat} {n : Nat}
    (h : computeRapResults itemSrc fuel members = some (.ok rr, n)) :
    ∀ uid, rr uid
      = if uid ∈ members.map Member.userId
          then memberScore itemSrc fuel uid
          else none :=
  computeRapResults_go_lookup itemSrc fuel members _ _ _ _ h

lemma computeRapResults_ok
    {itemSrc : Nat → String → FetchResp CollectibleItem} {fuel : Nat}
    {members : List Member}
    (h : ∀ m ∈ members, (memberScore itemSrc fuel m.userId).isSome) :
    ∃ rr n, computeRapResults itemSrc fuel members = some (.ok rr, n) :=
  computeRapResults_go_ok itemSrc fuel members h _ _

lemma computeRapResults_mem_ok
    {itemSrc : Nat → String → FetchResp CollectibleItem} {fuel : Nat}
    {members : List Member} {rr : Nat → Option Nat} {n : Nat}
    (h : computeRapResults itemSrc fuel members = some (.ok rr, n)) :
    ∀ m ∈ members, (memberScore itemSrc fuel m.userId).isSome :=
  computeRapResults_go_mem_ok itemSrc fuel members _ _ _ _ h

lemma rankMembers_sorted (members : List Member) (rapResults : Nat → Option Nat) :
    SortedDesc (rankMembers members rapResults) := by
  unfold SortedDesc rankMembers
  exact List.sorted_insertionSort rankedGE _

lemma rankMembers_perm (members : List Member) (rapResults : Nat → Option Nat) :
    (rankMembers members rapResults).Perm
      (members.map (fun m => ⟨m.username, (rapResults m.userId).getD 0⟩)) :=
  List.perm_insertionSort rankedGE _

lemma sortedDesc_perm_nodup_eq :
    ∀ (l1 l2 : List RankedUser), l1.Perm l2 → SortedDesc l1 → SortedDesc l2 →
      (l1.map RankedUser.rap).Nodup → l1 = l2 := by
  intro l1
  induction l1 with
  | nil => intro l2 hp _ _ _; exact (hp.nil_eq).symm ▸ rfl
  | cons a t1 ih =>
    intro l2 hp hs1 hs2 hnd
    cases l2 with
    | nil => exact absurd hp.length_eq (by simp)
    | cons b t2 =>
      have hs1c := (List.sorted_cons.mp hs1)
      have hs2c := (List.sorted_cons.mp hs2)
      have hab : a = b := by
        rcases List.mem_cons.mp (hp.mem_iff.mp (List.mem_cons_self a t1)) with h | hat2
        · exact h
        · rcases List.mem_cons.mp (hp.symm.mem_iff.mp (List.mem_cons_self b t2)) with h | hbt1
          · exact h.symm
          · have h1 : a.rap ≤ b.rap := hs2c.1 a hat2
            have h2 : b.rap ≤ a.rap := hs1c.1 b hbt1
            have heq : b.rap = a.rap := le_antisymm h2 h1
            have hmem : a.rap ∈ t1.map RankedUser.rap :=
              heq ▸ List.mem_map_of_mem RankedUser.rap hbt1
            simp only [List.map_cons, List.nodup_cons] at hnd
            exact absurd hmem hnd.1
      subst hab
      have ht : t1 = t2 :=
        ih t2 hp.cons_inv hs1c.2 hs2c.2
          (by simp only [List.map_cons, List.nodup_cons] at hnd; exact hnd.2)
      rw [ht]

lemma processCommunity_success
    {rosterSrc : String → FetchResp RosterEntry}
    {itemSrc : Nat → String → FetchResp CollectibleItem}
    {fuel : Nat} {cid : String} {store : Storage} {members : List Member}
    {rosterCalls : Nat} {rapResults : Nat → Option Nat} {memberCalls : Nat}
    (hros : fetchAllMembers rosterSrc fuel = some (.ok members, rosterCalls))
    (hagg : computeRapResults itemSrc fuel members
      = some (.ok rapResults, memberCalls)) :
    processCommunity rosterSrc itemSrc fuel cid store
      = some (.ok (rankMembers members rapResults),
          ⟨some cid, some (rankMembers members rapResults)⟩,
          rosterCalls + memberCalls) := by
  simp [processCommunity, hros, hagg]

lemma processCommunity_rosterError
    {rosterSrc : String → FetchResp RosterEntry} {fuel : Nat} {msg : String}
    {rosterCalls : Nat} (itemSrc : Nat → String → FetchResp CollectibleItem)
    (cid : String) (store : Storage)
    (hros : fetchAllMembers rosterSrc fuel = some (.error msg, rosterCalls)) :
    processCommunity rosterSrc itemSrc fuel cid store
      = some (.error msg, store, rosterCalls) := by
  simp [processCommunity, hros]

lemma processCommunity_roster_none
    {rosterSrc : String → FetchResp RosterEntry} {fuel : Nat}
    (itemSrc : Nat → String → FetchResp CollectibleItem)
    (cid : String) (store : Storage)
    (hros : fetchAllMembers rosterSrc fuel = none) :
    processCommunity rosterSrc itemSrc fuel cid store = none := by
  simp [processCommunity, hros]

lemma processCommunity_agg_none
    {rosterSrc : String → FetchResp RosterEntry}
    {itemSrc : Nat → String → FetchResp CollectibleItem}
    {fuel : Nat} {members : List Member} {rosterCalls : Nat}
    (cid : String) (store : Storage)
    (hros : fetchAllMembers rosterSrc fuel = some (.ok members, rosterCalls))
    (hagg : computeRapResults itemSrc fuel members = none) :
    processCommunity rosterSrc itemSrc fuel cid store = none := by
  simp [processCommunity, hros, hagg]

lemma processCommunity_aggError
    {rosterSrc : String → FetchResp RosterEntry}
    {itemSrc : Nat → String → FetchResp CollectibleItem}
    {fuel : Nat} {members : List Member} {rosterCalls : Nat}
    {msg : String} {memberCalls : Nat}
    (cid : String) (store : Storage)
    (hros : fetchAllMembers rosterSrc fuel = some (.ok members, rosterCalls))
    (hagg : computeRapResults itemSrc fuel members
      = some (.error msg, memberCalls)) :
    processCommunity rosterSrc itemSrc fuel cid store
      = some (.error msg, store, rosterCalls + memberCalls) := by
  simp [processCommunity, hros, hagg]

lemma processCommunity_ok_sorted
    {rosterSrc : String → FetchResp RosterEntry}
    {itemSrc : Nat → String → FetchResp CollectibleItem}
    {fuel : Nat} {cid : String} {store st2 : Storage}
    {ranked : List RankedUser} {n : Nat}
    (h : processCommunity rosterSrc itemSrc fuel cid store
      = some (.ok ranked, st2, n)) :
    SortedDesc ranked := by
  cases hros : fetchAllMembers rosterSrc fuel with
  | none => rw [processCommunity_roster_none itemSrc cid store hros] at h; simp at h
  | some p =>
    obtain ⟨res, rc⟩ := p
    cases res with
    | error e =>
      rw [processCommunity_rosterError itemSrc cid store hros] at h
      simp at h
    | ok members =>
      cases hagg : computeRapResults itemSrc fuel members with
      | none => rw [processCommunity_agg_none cid store hros hagg] at h; simp at h
      | some q =>
        obtain ⟨aggRes, mc⟩ := q
        cases aggRes with
        | error msg =>
          rw [processCommunity_aggError cid store hros hagg] at h
          simp at h
        | ok rr =>
          rw [processCommunity_success hros hagg] at h
          simp only [Option.some.injEq, Prod.mk.injEq, Except.ok.injEq] at h
          obtain ⟨h1, -, -⟩ := h
          rw [← h1]
          exact rankMembers_sorted members rr

/-- C1: for every input list and every concurrency cap at least 1, in every
state the asyncPool scheduler can reach, (a) the number of
started-but-not-yet-completed tasks is at most the cap, (b) the tasks
started so far are exactly one per already-launched input position — none
skipped, none started twice — and (c) when the returned promise resolves,
all N tasks have been started exactly once and have completed. -/
theorem asyncPool_bounded_and_exactly_once {α β : Type} [DecidableEq α]
    (poolLimit : Nat) (arr : List α) (f : α → Nat → β)
    (_hK : 1 ≤ poolLimit) (s : PoolState β)
    (h : PoolReachable poolLimit arr f s) :
    s.inFlight.length ≤ poolLimit ∧
    (s.inFlight ++ s.done).Perm (List.range s.next) ∧
    (PoolResolved arr.length s → s.done.Perm (List.range arr.length)) := by
  obtain ⟨hnext, hperm, hcap, _⟩ := poolReachable_inv h
  refine ⟨?_, hperm, ?_⟩
  · by_cases hK2 : poolLimit ≤ arr.length
    · exact hcap hK2
    · push_neg at hK2
      have h1 : s.inFlight.length + s.done.length = s.next := by
        have h2 := hperm.length_eq
        simpa using h2
      omega
  · rintro ⟨hn, hif⟩
    have h3 := hperm
    rw [hif] at h3
    simpa [hn] using h3

/-- Witness for the asyncPool boundedness theorem: cap 2, input
[10, 20, 30], in the state just after position 0 was launched. -/
theorem asyncPool_bounded_and_exactly_once_witness :
    1 ≤ 2 ∧
    ((⟨1, [0], [], fun _ => none⟩ : PoolState Nat).inFlight.length ≤ 2 ∧
     ((⟨1, [0], [], fun _ => none⟩ : PoolState Nat).inFlight ++
        (⟨1, [0], [], fun _ => none⟩ : PoolState Nat).done).Perm
       (List.range (⟨1, [0], [], fun _ => none⟩ : PoolState Nat).next) ∧
     (PoolResolved ([10, 20, 30] : List Nat).length
        (⟨1, [0], [], fun _ => none⟩ : PoolState Nat) →
       (⟨1, [0], [], fun _ => none⟩ : PoolState Nat).done.Perm
         (List.range ([10, 20, 30] : List Nat).length))) :=
  ⟨by decide,
    asyncPool_bounded_and_exactly_once 2 [10, 20, 30] (fun a i => a + i)
      (by decide) _ (.step .init (.launch _ (by decide) (by decide)))⟩

/-- C10: whenever an asyncPool run resolves — after any interleaving of
task completions — it resolves with one entry per input item, in input
order: slot i holds the value the task for input position i resolved with,
namely the iterator function applied to the item and the position
`array.indexOf(item)` computes for it. -/
theorem asyncPool_results_in_input_order {α β : Type} [DecidableEq α]
    (poolLimit : Nat) (arr : List α) (f : α → Nat → β) (s : PoolState β)
    (h : PoolReachable poolLimit arr f s) (hres : PoolResolved arr.length s) :
    (List.range arr.length).map s.results
      = arr.map (fun it => some (f it (arr.indexOf it))) := by
  obtain ⟨hnext, hperm, _, hresults⟩ := poolReachable_inv h
  obtain ⟨hn, hif⟩ := hres
  have hdone : s.done.Perm (List.range arr.length) := by
    have h3 := hperm
    rw [hif] at h3
    simpa [hn] using h3
  apply List.ext_getElem
  · simp
  · intro i h1 h2
    have hi : i < arr.length := by simpa using h1
    have himem : i ∈ s.done := hdone.mem_iff.mpr (by simpa using hi)
    simp only [List.getElem_map, List.getElem_range]
    rw [hresults i, if_pos himem]
    simp [taskResult, List.get?_eq_getElem?, List.getElem?_eq_getElem hi]

/-- Witness for the asyncPool result-order theorem: cap 1, input [5], the
completed run launch 0 then finish 0. -/
theorem asyncPool_results_in_input_order_witness :
    (List.range ([5] : List Nat).length).map
        (Function.update (fun _ => (none : Option Nat)) 0
          (taskResult [5] (fun a i => a * 10 + i) 0))
      = ([5] : List Nat).map
          (fun it => some ((fun a i => a * 10 + i) it (([5] : List Nat).indexOf it))) :=
  asyncPool_results_in_input_order 1 [5] (fun a i => a * 10 + i)
    ⟨1, [], [0], Function.update (fun _ => none) 0
      (taskResult [5] (fun a i => a * 10 + i) 0)⟩
    (.step (.step .init (.launch _ (by decide) (by decide))) (.finish _ 0 (by decide)))
    ⟨rfl, rfl⟩

/-- C2: for a member whose collectibles source yields the finite page chain
`ps` from the empty cursor, fetchUserRAP returns exactly the sum of those
item values that are at least 10000 over all pages (`qualifyingRAP` is the
filtered sum, so below-threshold items contribute nothing), with one
network call per page. -/
theorem fetchUserRAP_sums_qualifying
    (itemSrc : Nat → String → FetchResp CollectibleItem) (fuel uid : Nat)
    (ps : List (Page CollectibleItem))
    (hchain : PageChain (itemSrc uid) "" ps) (hfuel : ps.length ≤ fuel) :
    fetchUserRAP itemSrc fuel uid
      = some (.ok (qualifyingRAP (pagesItems ps)), ps.length) := by
  have h := fetchUserRAPGo_chain hchain fuel 0 0 hfuel
  simpa [fetchUserRAP] using h

/-- Witness for the fetchUserRAP summing theorem on a concrete two-page
source holding values 15000, 5000, 12000 and one missing price. -/
theorem fetchUserRAP_sums_qualifying_witness :
    fetchUserRAP itemSrcTwoPagesW 2 7
      = some (.ok (qualifyingRAP (pagesItems
          [⟨some [⟨some 15000⟩, ⟨some 5000⟩], some "A"⟩,
           ⟨some [⟨some 12000⟩, ⟨none⟩], none⟩])), 2) :=
  fetchUserRAP_sums_qualifying itemSrcTwoPagesW 2 7 _
    (PageChain.more "" "A" _ _ (by decide) rfl (by decide)
      (PageChain.last "A" _ (by decide) rfl))
    (by decide)

/-- C5: the paginated fetcher as instantiated by fetchAllMembers, started
from the empty-string cursor, returns the concatenation of all pages'
member entries in page order, following each page's next cursor until a
page reports none. -/
theorem fetchAllMembers_concatenates_pages
    (rosterSrc : String → FetchResp RosterEntry) (fuel : Nat)
    (ps : List (Page RosterEntry))
    (hchain : PageChain rosterSrc "" ps) (hfuel : ps.length ≤ fuel) :
    fetchAllMembers rosterSrc fuel
      = some (.ok (ps.flatMap pageMembers), ps.length) := by
  have h := fetchAllMembersGo_chain hchain fuel [] 0 hfuel
  simpa [fetchAllMembers] using h

/-- Witness for the fetchAllMembers concatenation theorem on the concrete
single-page roster fixture. -/
theorem fetchAllMembers_concatenates_pages_witness :
    fetchAllMembers rosterSrcW 3
      = some (.ok (([⟨some [⟨⟨1, "A"⟩⟩, ⟨⟨2, "B"⟩⟩], none⟩] :
          List (Page RosterEntry)).flatMap pageMembers), 1) :=
  fetchAllMembers_concatenates_pages rosterSrcW 3 _
    (PageChain.last "" _ (by decide) rfl) (by decide)

/-- C4: when the roster fetch fails (some roster page answers non-success
with status `st` after the good prefix `ps`), processCommunity returns the
labeled `Failed to fetch members` error and the storage it was given —
no CacheSnapshot is written, the prior snapshot is untouched — and the
message listener propagates that failure to the caller. -/
theorem rosterFailure_aborts_without_snapshot_write
    (rosterSrc : String → FetchResp RosterEntry)
    (itemSrc : Nat → String → FetchResp CollectibleItem)
    (fuel : Nat) (cid : String) (store : Storage)
    (ps : List (Page RosterEntry)) (st : Nat)
    (hchain : FailChain rosterSrc "" ps st) (hfuel : ps.length + 1 ≤ fuel) :
    processCommunity rosterSrc itemSrc fuel cid store
      = some (.error ("Failed to fetch members: " ++ toString st), store,
          ps.length + 1) ∧
    handleMessage rosterSrc itemSrc fuel (.fetchCommunity cid) store
      = some (some ⟨false, none,
            some ("Failed to fetch members: " ++ toString st)⟩,
          store, ps.length + 1) := by
  have hmem : fetchAllMembers rosterSrc fuel
      = some (.error ("Failed to fetch members: " ++ toString st),
          ps.length + 1) := by
    have h := fetchAllMembersGo_fail hchain fuel [] 0 hfuel
    simpa [fetchAllMembers] using h
  have hp := processCommunity_rosterError itemSrc cid store hmem
  refine ⟨hp, ?_⟩
  simp [handleMessage, hp, responseOf]

/-- Witness for the roster-failure theorem: the all-500 roster source with
a pre-existing snapshot in storage, which the failed run leaves intact. -/
theorem rosterFailure_aborts_without_snapshot_write_witness :
    processCommunity rosterFailSrcW itemSrcW 1 "5" ⟨some "7", some [⟨"Z", 1⟩]⟩
      = some (.error ("Failed to fetch members: " ++ toString 500),
          ⟨some "7", some [⟨"Z", 1⟩]⟩, 1) ∧
    handleMessage rosterFailSrcW itemSrcW 1 (.fetchCommunity "5")
        ⟨some "7", some [⟨"Z", 1⟩]⟩
      = some (some ⟨false, none,
            some ("Failed to fetch members: " ++ toString 500)⟩,
          ⟨some "7", some [⟨"Z", 1⟩]⟩, 1) :=
  rosterFailure_aborts_without_snapshot_write rosterFailSrcW itemSrcW 1 "5"
    ⟨some "7", some [⟨"Z", 1⟩]⟩ [] 500
    (FailChain.fail "" 500 (by decide)) (by decide)

/-- C3 as stated is false on the code: it also covers an unreachable
per-member source, but `fetchUserRAP` handles only resolved `!res.ok`
responses — a rejected `await fetch` is caught nowhere.  Concretely, with
user 2's source unreachable (`itemRejectSrcW`), `fetchUserRAP` raises the
rejection to its caller instead of returning a partial score, and the
whole ranking run aborts with that failure — no ranking is produced, user
2 is not scored 0, and the listener reports the run as failed (the prior
snapshot is at least left intact because the cache write is skipped). -/
theorem memberUnreachable_counterexample :
    fetchUserRAP itemRejectSrcW 3 2 = some (.error "Failed to fetch", 1) ∧
    processCommunity rosterSrcW itemRejectSrcW 3 "9" ⟨some "7", some [⟨"Z", 1⟩]⟩
      = some (.error "Failed to fetch", ⟨some "7", some [⟨"Z", 1⟩]⟩, 3) ∧
    handleMessage rosterSrcW itemRejectSrcW 3 (.fetchCommunity "9")
        ⟨some "7", some [⟨"Z", 1⟩]⟩
      = some (some ⟨false, none, some "Failed to fetch"⟩,
          ⟨some "7", some [⟨"Z", 1⟩]⟩, 3) :=
  ⟨rfl, rfl, rfl⟩

/-- C3 (amended: restricted to the failure mode the code handles, a
resolved non-success response — an unreachable source instead rejects and
aborts the run, see the counterexample): when a member's source answers a
non-success response after the good pages `fps`, fetchUserRAP terminates
that member's pagination early and returns normally (`Except.ok`, nothing
raised) with the partial accumulated score (0 when the very first page
fails); and a ranking run whose aggregation completed under healthy
sources still completes when one member's source breaks this way: that
member's recorded score becomes the partial (possibly 0) sum, every other
member's score is unchanged, and the pipeline persists a ranking as
usual. -/
theorem memberFetchFailure_partial_score_pipeline_completes
    (rosterSrc : String → FetchResp RosterEntry)
    (itemSrc itemSrc2 : Nat → String → FetchResp CollectibleItem)
    (fuel : Nat) (cid : String) (store : Storage)
    (members : List Member) (rosterCalls : Nat)
    (rapResults : Nat → Option Nat) (memberCalls : Nat)
    (u st : Nat) (fps : List (Page CollectibleItem))
    (hros : fetchAllMembers rosterSrc fuel = some (.ok members, rosterCalls))
    (hagg : computeRapResults itemSrc fuel members
      = some (.ok rapResults, memberCalls))
    (hsame : ∀ uid, uid ≠ u → itemSrc2 uid = itemSrc uid)
    (hfail : FailChain (itemSrc2 u) "" fps st)
    (hfuel : fps.length + 1 ≤ fuel) :
    fetchUserRAP itemSrc2 fuel u
      = some (.ok (qualifyingRAP (pagesItems fps)), fps.length + 1) ∧
    ∃ rapResults2 memberCalls2,
      computeRapResults itemSrc2 fuel members
        = some (.ok rapResults2, memberCalls2) ∧
      processCommunity rosterSrc itemSrc2 fuel cid store
        = some (.ok (rankMembers members rapResults2),
            ⟨some cid, some (rankMembers members rapResults2)⟩,
            rosterCalls + memberCalls2) ∧
      (u ∈ members.map Member.userId →
        rapResults2 u = some (qualifyingRAP (pagesItems fps))) ∧
      (∀ uid, uid ≠ u → rapResults2 uid = rapResults uid) := by
  have hu : fetchUserRAP itemSrc2 fuel u
      = some (.ok (qualifyingRAP (pagesItems fps)), fps.length + 1) := by
    have h := fetchUserRAPGo_fail hfail fuel 0 0 hfuel
    simpa [fetchUserRAP] using h
  refine ⟨hu, ?_⟩
  have hall : ∀ m ∈ members, (memberScore itemSrc2 fuel m.userId).isSome := by
    intro m hm
    by_cases hmu : m.userId = u
    · rw [hmu]
      exact memberScore_isSome_iff.mpr ⟨_, _, hu⟩
    · have h5 := computeRapResults_mem_ok hagg m hm
      rwa [show memberScore itemSrc2 fuel m.userId
          = memberScore itemSrc fuel m.userId from by
        simp [memberScore, fetchUserRAP, hsame m.userId hmu]]
  obtain ⟨rr2, mc2, hq⟩ := computeRapResults_ok hall
  refine ⟨rr2, mc2, hq, processCommunity_success hros hq, ?_, ?_⟩
  · intro hmem
    rw [computeRapResults_lookup hq u, if_pos hmem]
    simp [memberScore, hu]
  · intro uid hne
    rw [computeRapResults_lookup hq uid, computeRapResults_lookup hagg uid]
    by_cases hmem : uid ∈ members.map Member.userId
    · rw [if_pos hmem, if_pos hmem,
        show memberScore itemSrc2 fuel uid = memberScore itemSrc fuel uid from by
          simp [memberScore, fetchUserRAP, hsame uid hne]]
    · rw [if_neg hmem, if_neg hmem]

/-- Witness for the member-failure theorem: user 2's source answers 500 at
the first request, user 1 is unaffected and the pipeline still
completes. -/
theorem memberFetchFailure_partial_score_pipeline_completes_witness :
    fetchUserRAP itemSrcPartW 3 2 = some (.ok 0, 1) ∧
    ∃ rapResults2 memberCalls2,
      computeRapResults itemSrcPartW 3 membersW
        = some (.ok rapResults2, memberCalls2) ∧
      processCommunity rosterSrcW itemSrcPartW 3 "9" ⟨none, none⟩
        = some (.ok (rankMembers membersW rapResults2),
            ⟨some "9", some (rankMembers membersW rapResults2)⟩,
            1 + memberCalls2) ∧
      (2 ∈ membersW.map Member.userId → rapResults2 2 = some 0) ∧
      (∀ uid, uid ≠ 2 → rapResults2 uid = rapResultsW uid) :=
  memberFetchFailure_partial_score_pipeline_completes rosterSrcW itemSrcW
    itemSrcPartW 3 "9" ⟨none, none⟩ membersW 1 rapResultsW 2 2 500 []
    rfl rfl
    (fun uid h => funext fun c => by simp [itemSrcPartW, h])
    (FailChain.fail "" 500 (by decide)) (by decide)

/-- C6: a successful ranking run returns exactly the descending sort of the
roster projection: the result is non-increasing in score and is a
permutation of the roster members, each projected to its username and its
recorded score with a default of 0 when none was recorded. -/
theorem ranked_sorted_and_projects_roster
    (rosterSrc : String → FetchResp RosterEntry)
    (itemSrc : Nat → String → FetchResp CollectibleItem)
    (fuel : Nat) (cid : String) (store : Storage)
    (members : List Member) (rosterCalls : Nat)
    (rapResults : Nat → Option Nat) (memberCalls : Nat)
    (hros : fetchAllMembers rosterSrc fuel = some (.ok members, rosterCalls))
    (hagg : computeRapResults itemSrc fuel members
      = some (.ok rapResults, memberCalls)) :
    processCommunity rosterSrc itemSrc fuel cid store
      = some (.ok (rankMembers members rapResults),
          ⟨some cid, some (rankMembers members rapResults)⟩,
          rosterCalls + memberCalls) ∧
    SortedDesc (rankMembers members rapResults) ∧
    (rankMembers members rapResults).Perm
      (members.map (fun m => ⟨m.username, (rapResults m.userId).getD 0⟩)) :=
  ⟨processCommunity_success hros hagg, rankMembers_sorted members rapResults,
    rankMembers_perm members rapResults⟩

/-- Witness for the sorted-projection theorem on the concrete two-member
fixture. -/
theorem ranked_sorted_and_projects_roster_witness :
    processCommunity rosterSrcW itemSrcW 3 "9" ⟨none, none⟩
      = some (.ok (rankMembers membersW rapResultsW),
          ⟨some "9", some (rankMembers membersW rapResultsW)⟩, 1 + 2) ∧
    SortedDesc (rankMembers membersW rapResultsW) ∧
    (rankMembers membersW rapResultsW).Perm
      (membersW.map (fun m => ⟨m.username, (rapResultsW m.userId).getD 0⟩)) :=
  ranked_sorted_and_projects_roster rosterSrcW itemSrcW 3 "9" ⟨none, none⟩
    membersW 1 rapResultsW 2 rfl rfl

/-- C7: every successful ranking run ends by writing the CacheSnapshot
{lastCommunityId = requested id, lastResults = ranked sequence} no matter
what snapshot the store held before, and an empty roster still persists a
snapshot whose result list is empty. -/
theorem successfulRun_persists_snapshot
    (rosterSrc : String → FetchResp RosterEntry)
    (itemSrc : Nat → String → FetchResp CollectibleItem)
    (fuel : Nat) (cid : String) (store : Storage)
    (members : List Member) (rosterCalls : Nat)
    (rapResults : Nat → Option Nat) (memberCalls : Nat)
    (hros : fetchAllMembers rosterSrc fuel = some (.ok members, rosterCalls))
    (hagg : computeRapResults itemSrc fuel members
      = some (.ok rapResults, memberCalls)) :
    processCommunity rosterSrc itemSrc fuel cid store
      = some (.ok (rankMembers members rapResults),
          ⟨some cid, some (rankMembers members rapResults)⟩,
          rosterCalls + memberCalls) ∧
    (members = [] → rankMembers members rapResults = []) :=
  ⟨processCommunity_success hros hagg, fun h => by rw [h]; rfl⟩

/-- Witness for the snapshot-persistence theorem: an empty roster, run over
a store holding an older snapshot, which gets overwritten by the empty
result. -/
theorem successfulRun_persists_snapshot_witness :
    processCommunity rosterEmptySrcW itemSrcW 2 "42" ⟨some "7", some [⟨"Z", 1⟩]⟩
      = some (.ok (rankMembers [] (fun _ => none)),
          ⟨some "42", some (rankMembers [] (fun _ => none))⟩, 1 + 0) ∧
    (([] : List Member) = [] → rankMembers [] (fun _ => none) = []) :=
  successfulRun_persists_snapshot rosterEmptySrcW itemSrcW 2 "42"
    ⟨some "7", some [⟨"Z", 1⟩]⟩ [] 1 (fun _ => none) 0 rfl rfl

/-- C8 as stated is false on the code: an empty-string lastCommunityId is
present in the store, yet the listener answers the no-prior-query error
instead of re-running the pipeline (which would have succeeded here). -/
theorem refresh_present_empty_id_counterexample :
    handleMessage rosterSrcW itemSrcW 3 .refresh ⟨some "", none⟩
      = some (some ⟨false, none, some "No previous community searched."⟩,
          ⟨some "", none⟩, 0) ∧
    (processCommunity rosterSrcW itemSrcW 3 "" ⟨some "", none⟩).map
        (fun r => (some (responseOf r.1), r.2.1, r.2.2))
      ≠ some (some ⟨false, none, some "No previous community searched."⟩,
          ⟨some "", none⟩, 0) := by
  constructor
  · rfl
  · decide

/-- C8 (amended: a present lastCommunityId re-runs the pipeline only when
it is non-empty, JS truthiness): refresh against a store with no
lastCommunityId answers the distinct no-prior-query error at once with
zero network calls and an unchanged store; with a present, non-empty
lastCommunityId it re-runs the full ranking pipeline with that id and
forwards its outcome. -/
theorem refresh_requires_prior_query
    (rosterSrc : String → FetchResp RosterEntry)
    (itemSrc : Nat → String → FetchResp CollectibleItem)
    (fuel : Nat) (store : Storage) :
    (store.lastCommunityId = none →
      handleMessage rosterSrc itemSrc fuel .refresh store
        = some (some ⟨false, none, some "No previous community searched."⟩,
            store, 0)) ∧
    (∀ cid, store.lastCommunityId = some cid → cid ≠ "" →
      handleMessage rosterSrc itemSrc fuel .refresh store
        = (processCommunity rosterSrc itemSrc fuel cid store).map
            (fun r => (some (responseOf r.1), r.2.1, r.2.2))) := by
  constructor
  · intro h
    simp [handleMessage, h]
  · intro cid h hne
    simp [handleMessage, h, hne]

/-- Witness for the refresh theorem: an empty store answers the
no-prior-query error with zero network calls. -/
theorem refresh_requires_prior_query_witness :
    handleMessage rosterFailSrcW itemFailSrcW 1 .refresh ⟨none, none⟩
      = some (some ⟨false, none, some "No previous community searched."⟩,
          ⟨none, none⟩, 0) :=
  (refresh_requires_prior_query rosterFailSrcW itemFailSrcW 1 ⟨none, none⟩).1 rfl

/-- C9: the roster fetch, aggregation and projection are deterministic
functions of the upstream data, and when all scores are distinct the
descending sort has exactly one possible output: any two sorted
rearrangements of a successful run's ranking are equal — and equal that
run's ranking — so a second run over identical upstream data returns the
identical ranked sequence; only tied scores could reorder. -/
theorem rankCommunity_deterministic_under_distinct_scores
    (rosterSrc : String → FetchResp RosterEntry)
    (itemSrc : Nat → String → FetchResp CollectibleItem)
    (fuel : Nat) (cid : String) (store st2 : Storage)
    (ranked out1 out2 : List RankedUser) (n : Nat)
    (hrun : processCommunity rosterSrc itemSrc fuel cid store
      = some (.ok ranked, st2, n))
    (hnodup : (ranked.map RankedUser.rap).Nodup)
    (h1 : out1.Perm ranked) (hs1 : SortedDesc out1)
    (h2 : out2.Perm ranked) (hs2 : SortedDesc out2) :
    out1 = out2 ∧ out1 = ranked := by
  have hsr : SortedDesc ranked := processCommunity_ok_sorted hrun
  have e1 : out1 = ranked :=
    sortedDesc_perm_nodup_eq out1 ranked h1 hs1 hsr
      (((h1.map RankedUser.rap).nodup_iff).mpr hnodup)
  have e2 : out2 = ranked :=
    sortedDesc_perm_nodup_eq out2 ranked h2 hs2 hsr
      (((h2.map RankedUser.rap).nodup_iff).mpr hnodup)
  exact ⟨e1.trans e2.symm, e1⟩

/-- Witness for the determinism theorem on the concrete run with distinct
scores 15000 and 12000. -/
theorem rankCommunity_deterministic_under_distinct_scores_witness :
    ([⟨"A", 15000⟩, ⟨"B", 12000⟩] : List RankedUser)
        = [⟨"A", 15000⟩, ⟨"B", 12000⟩] ∧
    ([⟨"A", 15000⟩, ⟨"B", 12000⟩] : List RankedUser)
        = rankMembers membersW rapResultsW :=
  rankCommunity_deterministic_under_distinct_scores rosterSrcW itemSrcW 3 "9"
    ⟨none, none⟩ ⟨some "9", some (rankMembers membersW rapResultsW)⟩
    (rankMembers membersW rapResultsW)
    [⟨"A", 15000⟩, ⟨"B", 12000⟩] [⟨"A", 15000⟩, ⟨"B", 12000⟩] 3
    rfl (by decide) (by decide) (by decide) (by decide) (by decide)

end Background
